import Mathlib

/-!
Verification of the auto-round block-wise quantization tuner
(src/auto_round/autoround.py, src/auto_round/teq_util.py) against its
natural-language specification.

Shallow embedding conventions:
* floating-point tensors are modelled over `ℚ`; the properties settled here
  concern control flow, clamping, counting and comparisons, all of which are
  exact in IEEE floats as well;
* a 2-d tensor is a `List (List ℚ)` (rows), a 1-d tensor a `List ℚ`;
* the sentinel `torch.finfo(torch.float).max` that initializes the best loss
  is modelled as `Option ℚ` with `none` for the sentinel: any finite loss
  compares strictly below it;
* in-place mutation (`copy_`, `clamp_`) is modelled by explicit state passing;
* `exit()` / raised exceptions are modelled with `Except`.
-/

/-- Embedding of `torch.clamp(x, -1, 0)` on one scalar. -/
def clamp1 (x : ℚ) : ℚ := min (max x (-1)) 0

/-- Embedding of `torch.clamp(t, -1, 0)` on a 1-d tensor. -/
def clampRow (t : List ℚ) : List ℚ := t.map clamp1

/-- Embedding of `torch.clamp(t, -1, 0)` on a 2-d tensor. -/
def clampTensor (t : List (List ℚ)) : List (List ℚ) := t.map clampRow

/-- Embedding of `clamp(q, lo, hi)` on integers, used on the quantized levels. -/
def intClamp (q lo hi : ℤ) : ℤ := min (max q lo) hi

/-- Every element of a 2-d tensor lies in `[-1, 0]`. -/
def tensorInRange (t : List (List ℚ)) : Prop := ∀ r ∈ t, ∀ x ∈ r, -1 ≤ x ∧ x ≤ 0

/-- Minimum of a group (0 for an empty group, which does not arise). -/
def listMin : List ℚ → ℚ
  | [] => 0
  | x :: xs => xs.foldl min x

/-- Maximum of a group. -/
def listMax : List ℚ → ℚ
  | [] => 0
  | x :: xs => xs.foldl max x

/-- Split one weight row into quantization groups along the input dimension:
`group_size = -1` means one group spanning the whole row, `group_size ≥ 1`
means chunks of that size. -/
def groupsOf (group_size : ℤ) (row : List ℚ) : List (List ℚ) :=
  if group_size ≤ 0 then [row] else row.toChunks group_size.toNat

/-- Modelled from the spec: the body of `quant_weight` (auto_round/utils.py is
not under src/) on one quantization group, following section 4.1 of the spec.
Given the group of weights `w`, the matching rounding offsets `v`, the
bit-width, the symmetry flag and the two clip fractions, it computes the
clipped range `min' = min * (1 + min_scale)`, `max' = max * (1 + max_scale)`,
derives scale and zero point (symmetric: from `max(|min'|, |max'|)` with the
zero point at the signed-range midpoint; asymmetric:
`scale = (max' - min') / (2^b - 1)`, `zero_point = round(-min' / scale)`),
quantizes `q = clamp(round(w / scale + v) + zero_point, 0, 2^b - 1)` and
dequantizes `(q - zero_point) * scale`. -/
def quantGroup (bits : ℕ) (sym : Bool) (minS maxS : ℚ) (w v : List ℚ) :
    List ℚ × ℚ × ℚ :=
  let wmin := listMin w
  let wmax := listMax w
  let m1 := wmin * (1 + minS)
  let m2 := wmax * (1 + maxS)
  let levels : ℚ := (2 : ℚ) ^ bits - 1
  let sz : ℚ × ℤ :=
    if sym then
      ((2 * max |m1| |m2|) / levels, round (levels / 2))
    else
      let sc := (m2 - m1) / levels
      (sc, round (-m1 / sc))
  let scale := sz.1
  let zp := sz.2
  let qdq := (w.zip v).map fun p =>
    let q := intClamp (round (p.1 / scale + p.2) + zp) 0 (2 ^ bits - 1)
    ((q : ℚ) - (zp : ℚ)) * scale
  (qdq, scale, (zp : ℚ))

/-- Modelled from the spec: `quant_weight` over a full `[out, in]` weight
tensor. Each row is split into groups; the clip-fraction tensors carry one
entry per group of each row. Returns the fake-quantized weight together with
the per-group scales and zero points. -/
def quant_weight (w : List (List ℚ)) (bits : ℕ) (group_size : ℤ) (sym : Bool)
    (v minScale maxScale : List (List ℚ)) :
    List (List ℚ) × List (List ℚ) × List (List ℚ) :=
  let rows := (w.zip v).zip (minScale.zip maxScale)
  let per := rows.map fun rr =>
    let wRow := rr.1.1
    let vRow := rr.1.2
    let msRow := rr.2.1
    let xsRow := rr.2.2
    let wGroups := groupsOf group_size wRow
    let vGroups := groupsOf group_size vRow
    let triples := (wGroups.zip vGroups).zip (msRow.zip xsRow)
    let outs := triples.map fun t =>
      quantGroup bits sym t.2.1 t.2.2 t.1.1 t.1.2
    (outs.foldr (fun o acc => o.1 ++ acc) [],
     outs.map (fun o => o.2.1),
     outs.map (fun o => o.2.2))
  (per.map (fun p => p.1), per.map (fun p => p.2.1), per.map (fun p => p.2.2))

/-- The tuning state a `WrapperLinear` owns: the original layer's weight and
bias, the per-layer quantization policy, and the learnable `value`,
`min_scale`, `max_scale` parameters (all initialized to zero tensors by the
constructor). -/
structure WrapperLinearState where
  weight : List (List ℚ)
  bias : Option (List ℚ)
  num_bits : ℕ
  group_size : ℤ
  sym : Bool
  value : List (List ℚ)
  min_scale : List (List ℚ)
  max_scale : List (List ℚ)

/-- One call to `quant_weight` as observed at its call site: the rounding
offset and the two clip-scale tensors actually passed. -/
structure QuantCall where
  v : List (List ℚ)
  min_scale : List (List ℚ)
  max_scale : List (List ℚ)

/-- Dot product of two rows. -/
def dotProd (a b : List ℚ) : ℚ := ((a.zip b).map fun p => p.1 * p.2).sum

/-- Embedding of `F.linear(x, w, bias)`: every row of `x` against every row of `w`,
plus the bias. -/
def linearMap (w : List (List ℚ)) (b : Option (List ℚ)) (x : List (List ℚ)) :
    List (List ℚ) :=
  x.map fun xr =>
    match b with
    | none => w.map fun wr => dotProd xr wr
    | some bv => (w.zip bv).map fun p => dotProd xr p.1 + p.2

/-- Embedding of `WrapperLinear.forward` (autoround.py lines 135-161): clamp `min_scale`
and `max_scale` into `[-1, 0]` in place, fake-quantize the weight with the
clamped scales via `quant_weight`, and run `F.linear` with the quantized
weight. Returns the updated state, the `quant_weight` call as issued, and
the layer output. -/
def WrapperLinear.forward (s : WrapperLinearState) (x : List (List ℚ)) :
    WrapperLinearState × QuantCall × List (List ℚ) :=
  let ms := clampTensor s.min_scale
  let xs := clampTensor s.max_scale
  let s2 := { s with min_scale := ms, max_scale := xs }
  let call : QuantCall := ⟨s.value, ms, xs⟩
  let wq := (quant_weight s.weight s.num_bits s.group_size s.sym s.value ms xs).1
  (s2, call, linearMap wq s.bias x)

/-- Embedding of `x @ w + bias` with `w` of shape `[in, out]`, as `torch.addmm` uses it in
the Conv1D wrapper. -/
def addmmMap (b : List ℚ) (x : List (List ℚ)) (w : List (List ℚ)) :
    List (List ℚ) :=
  x.map fun xr =>
    (b.enum.map fun p => p.2 + dotProd xr (w.map fun wr => wr.getD p.1 0))

/-- The tuning state of `WrapperTransformerConv1d`: the transposed weight
`weight_t`, the bias, the policy and the learnable parameters. -/
structure WrapperConv1dState where
  weight_t : List (List ℚ)
  bias : List ℚ
  num_bits : ℕ
  group_size : ℤ
  sym : Bool
  value : List (List ℚ)
  min_scale : List (List ℚ)
  max_scale : List (List ℚ)

/-- Embedding of `WrapperTransformerConv1d.forward` (autoround.py lines 226-252): clamp
both scale tensors in place, fake-quantize `weight_t` with the clamped
scales, and apply `addmm` with the quantized weight. -/
def WrapperTransformerConv1d.forward (s : WrapperConv1dState)
    (x : List (List ℚ)) : WrapperConv1dState × QuantCall × List (List ℚ) :=
  let ms := clampTensor s.min_scale
  let xs := clampTensor s.max_scale
  let s2 := { s with min_scale := ms, max_scale := xs }
  let call : QuantCall := ⟨s.value, ms, xs⟩
  let wq := (quant_weight s.weight_t s.num_bits s.group_size s.sym s.value ms xs).1
  (s2, call, addmmMap s.bias x wq)

/-- Embedding of `WrapperLinear.unwrapper` (autoround.py lines 105-133): clamp the given
`min_scale` / `max_scale` into `[-1, 0]`, fake-quantize the weight with them
and overwrite the layer weight. Returns the committed weight data together
with the `quant_weight` call as issued. -/
def WrapperLinear.unwrapper (s : WrapperLinearState)
    (v minScale maxScale : List (List ℚ)) :
    (List (List ℚ) × List (List ℚ) × List (List ℚ)) × QuantCall :=
  let ms := clampTensor minScale
  let xs := clampTensor maxScale
  let out := quant_weight s.weight s.num_bits s.group_size s.sym v ms xs
  (out, ⟨v, ms, xs⟩)

/-- Embedding of `unwrapper_block` (autoround.py lines 346-376): for every wrapped layer,
pick the committed parameters from the best-snapshot dictionaries when they
are dictionaries (clamping the scales into `[-1, 0]`), otherwise fall back to
the neutral `v = 0`, `min_scale = tensor(0)`, `max_scale = tensor(0)`, and
invoke the layer's `unwrapper` (which clamps the scales again). `none` stands
for the non-dict fallback sentinel `torch.tensor(0)`. Returns the
`quant_weight` calls issued, one per layer. -/
def unwrapper_block (layers : List (String × WrapperLinearState))
    (vs minScales maxScales : Option (String → List (List ℚ))) :
    List QuantCall :=
  layers.map fun nm =>
    let v := match vs with
      | some f => f nm.1
      | none => [[0]]
    let ms := match minScales with
      | some f => clampTensor (f nm.1)
      | none => [[0]]
    let xs := match maxScales with
      | some f => clampTensor (f nm.1)
      | none => [[0]]
    (WrapperLinear.unwrapper nm.2 v ms xs).2

lemma clamp1_mem (x : ℚ) : -1 ≤ clamp1 x ∧ clamp1 x ≤ 0 := by
  constructor
  · exact le_min (le_max_right x (-1)) (by norm_num)
  · exact min_le_right _ 0

lemma clampTensor_inRange (t : List (List ℚ)) : tensorInRange (clampTensor t) := by
  intro r hr x hx
  simp only [clampTensor, List.mem_map] at hr
  obtain ⟨r0, _, hr0⟩ := hr
  subst hr0
  simp only [clampRow, List.mem_map] at hx
  obtain ⟨x0, _, hx0⟩ := hx
  subst hx0
  exact clamp1_mem x0

lemma zeroTensor_inRange : tensorInRange [[(0 : ℚ)]] := by
  intro r hr x hx
  simp only [List.mem_singleton] at hr
  subst hr
  simp only [List.mem_singleton] at hx
  subst hx
  norm_num

/-- Claim C1: at every observation point the clip scales lie in `[-1, 0]`:
the scale tensors a wrapped linear or Conv1D forward pass hands to
`quant_weight` (and stores back into the parameters), the scales an unwrap
call hands to `quant_weight`, and the scales of every call `unwrapper_block`
issues, are all elementwise within `[-1, 0]`, because each site clamps them
first. -/
theorem scale_range_invariant :
    (∀ (s : WrapperLinearState) (x : List (List ℚ)),
       tensorInRange (WrapperLinear.forward s x).2.1.min_scale ∧
       tensorInRange (WrapperLinear.forward s x).2.1.max_scale ∧
       tensorInRange (WrapperLinear.forward s x).1.min_scale ∧
       tensorInRange (WrapperLinear.forward s x).1.max_scale) ∧
    (∀ (s : WrapperConv1dState) (x : List (List ℚ)),
       tensorInRange (WrapperTransformerConv1d.forward s x).2.1.min_scale ∧
       tensorInRange (WrapperTransformerConv1d.forward s x).2.1.max_scale ∧
       tensorInRange (WrapperTransformerConv1d.forward s x).1.min_scale ∧
       tensorInRange (WrapperTransformerConv1d.forward s x).1.max_scale) ∧
    (∀ (s : WrapperLinearState) (v ms xs : List (List ℚ)),
       tensorInRange (WrapperLinear.unwrapper s v ms xs).2.min_scale ∧
       tensorInRange (WrapperLinear.unwrapper s v ms xs).2.max_scale) ∧
    (∀ (layers : List (String × WrapperLinearState))
       (vs minScales maxScales : Option (String → List (List ℚ))),
       ∀ c ∈ unwrapper_block layers vs minScales maxScales,
         tensorInRange c.min_scale ∧ tensorInRange c.max_scale) := by
  refine ⟨fun s x => ?_, fun s x => ?_, fun s v ms xs => ?_, ?_⟩
  · exact ⟨clampTensor_inRange _, clampTensor_inRange _,
      clampTensor_inRange _, clampTensor_inRange _⟩
  · exact ⟨clampTensor_inRange _, clampTensor_inRange _,
      clampTensor_inRange _, clampTensor_inRange _⟩
  · exact ⟨clampTensor_inRange _, clampTensor_inRange _⟩
  · intro layers vs minScales maxScales c hc
    simp only [unwrapper_block, List.mem_map] at hc
    obtain ⟨nm, _, hnm⟩ := hc
    subst hnm
    simp only [WrapperLinear.unwrapper]
    constructor
    · cases minScales with
      | none => exact clampTensor_inRange _
      | some f => exact clampTensor_inRange _
    · cases maxScales with
      | none => exact clampTensor_inRange _
      | some f => exact clampTensor_inRange _

/-- The configuration fields of `AutoRound.quant_block` that steer the
iteration loop (autoround.py lines 1018-1076). -/
structure LoopCfg where
  iters : ℕ
  not_use_best_mse : Bool
  dynamic_max_gap : ℤ

/-- The loop-carried tracking state of `quant_block`: `best_loss`
(`none` is the initial `torch.finfo(torch.float).max` sentinel),
`last_best_iter`, and the best snapshot (`none` is the initial non-dict
`torch.tensor(0)` placeholder of `best_v` / `best_min_scale` /
`best_max_scale`). -/
structure LoopState (α : Type) where
  best_loss : Option ℚ
  last_best_iter : ℕ
  snap : Option α

/-- Comparison `total_loss < best_loss` against the sentinel-or-value best. -/
def ltBest (x : ℚ) : Option ℚ → Bool
  | none => true
  | some b => decide (x < b)

/-- Order `a ≤ b` on recorded best losses, the sentinel `none` being largest. -/
def bestLE : Option ℚ → Option ℚ → Prop
  | _, none => True
  | none, some _ => False
  | some a, some b => a ≤ b

/-- The state update of one iteration `i` of the `quant_block` loop
(autoround.py lines 1062-1071): if the iteration's total loss improves on the
best seen, record it, and — unless best-tracking is disabled — snapshot the
block's current parameters and the iteration index; when best-tracking is
disabled, the final iteration's parameters are kept instead. `loss i` is the
iteration's accumulated `total_loss` and `params i` the value
`collect_round_v` / `collect_minmax_scale` would snapshot at iteration `i`. -/
def quantIterUpdate {α : Type} (cfg : LoopCfg) (loss : ℕ → ℚ) (params : ℕ → α)
    (i : ℕ) (s : LoopState α) : LoopState α :=
  let tl := loss i
  let s1 :=
    if ltBest tl s.best_loss then
      if cfg.not_use_best_mse then { s with best_loss := some tl }
      else { best_loss := some tl, last_best_iter := i, snap := some (params i) }
    else s
  if cfg.not_use_best_mse && (i == cfg.iters - 1) then
    { s1 with snap := some (params i) }
  else s1

/-- The early-stop test of autoround.py lines 1073-1075, evaluated after the
iteration's update: best-tracking enabled, a strictly positive gap
configured, and `i - last_best_iter >= dynamic_max_gap`. -/
def breakCond {α : Type} (cfg : LoopCfg) (i : ℕ) (s : LoopState α) : Bool :=
  !cfg.not_use_best_mse && decide (0 < cfg.dynamic_max_gap) &&
    decide (cfg.dynamic_max_gap ≤ (i : ℤ) - (s.last_best_iter : ℤ))

/-- Embedding of `for i in range(iters)` with the break: runs the update at index `i`,
breaks when the early-stop test fires (returning the break index), otherwise
continues with the remaining budget. -/
def quantLoopAux {α : Type} (cfg : LoopCfg) (loss : ℕ → ℚ) (params : ℕ → α) :
    ℕ → ℕ → LoopState α → LoopState α × Option ℕ
  | _, 0, s => (s, none)
  | i, fuel + 1, s =>
    let s1 := quantIterUpdate cfg loss params i s
    if breakCond cfg i s1 then (s1, some i)
    else quantLoopAux cfg loss params (i + 1) fuel s1

/-- The initial tracking state of `quant_block` (autoround.py lines
1007-1016). -/
def initLoopState (α : Type) : LoopState α := ⟨none, 0, none⟩

/-- The whole `quant_block` iteration loop: iterate from 0 with budget
`cfg.iters`; the second component is the index at which the loop broke early,
`none` when the full budget ran. -/
def quant_block_loop {α : Type} (cfg : LoopCfg) (loss : ℕ → ℚ) (params : ℕ → α) :
    LoopState α × Option ℕ :=
  quantLoopAux cfg loss params 0 cfg.iters (initLoopState α)

/-- The tracking state after `k` executed iterations (the executed prefix of
the loop, before any break truncates it). -/
def stateAt {α : Type} (cfg : LoopCfg) (loss : ℕ → ℚ) (params : ℕ → α) :
    ℕ → LoopState α
  | 0 => initLoopState α
  | k + 1 => quantIterUpdate cfg loss params k (stateAt cfg loss params k)

lemma quantLoopAux_no_break_of_disabled {α : Type} (cfg : LoopCfg)
    (loss : ℕ → ℚ) (params : ℕ → α) (h : cfg.not_use_best_mse = true) :
    ∀ (fuel i : ℕ) (s : LoopState α),
      (quantLoopAux cfg loss params i fuel s).2 = none := by
  intro fuel
  induction fuel with
  | zero => intro i s; rfl
  | succ n ih =>
    intro i s
    simp only [quantLoopAux, breakCond, h, Bool.not_true, Bool.false_and]
    exact ih (i + 1) _

lemma quantLoopAux_no_break_of_nonpos_gap {α : Type} (cfg : LoopCfg)
    (loss : ℕ → ℚ) (params : ℕ → α) (h : cfg.dynamic_max_gap ≤ 0) :
    ∀ (fuel i : ℕ) (s : LoopState α),
      (quantLoopAux cfg loss params i fuel s).2 = none := by
  intro fuel
  induction fuel with
  | zero => intro i s; rfl
  | succ n ih =>
    intro i s
    have hgap : decide (0 < cfg.dynamic_max_gap) = false := by
      simp [not_lt.mpr h]
    simp only [quantLoopAux, breakCond, hgap, Bool.and_false, Bool.false_and]
    exact ih (i + 1) _

lemma quantLoopAux_break_reached {α : Type} (cfg : LoopCfg)
    (loss : ℕ → ℚ) (params : ℕ → α) :
    ∀ (fuel i j : ℕ) (s : LoopState α),
      (quantLoopAux cfg loss params i fuel s).2 = some j →
      0 < cfg.dynamic_max_gap ∧ cfg.not_use_best_mse = false ∧
        cfg.dynamic_max_gap ≤ (j : ℤ) -
          ((quantLoopAux cfg loss params i fuel s).1.last_best_iter : ℤ) := by
  intro fuel
  induction fuel with
  | zero => intro i j s h; exact absurd h (by simp [quantLoopAux])
  | succ n ih =>
    intro i j s h
    by_cases hb : breakCond cfg i (quantIterUpdate cfg loss params i s) = true
    · have hres : quantLoopAux cfg loss params i (n + 1) s =
          (quantIterUpdate cfg loss params i s, some i) := by
        simp [quantLoopAux, hb]
      rw [hres] at h ⊢
      simp only [Option.some.injEq] at h
      subst h
      simp only [breakCond, Bool.and_eq_true, Bool.not_eq_true',
        decide_eq_true_eq] at hb
      exact ⟨hb.1.2, hb.1.1, hb.2⟩
    · have hres : quantLoopAux cfg loss params i (n + 1) s =
          quantLoopAux cfg loss params (i + 1) n
            (quantIterUpdate cfg loss params i s) := by
        simp [quantLoopAux, hb]
      rw [hres] at h ⊢
      exact ih (i + 1) j _ h

/-- Claim C2: the early-stop boundary of the `quant_block` loop. With
best-tracking enabled and `dynamic_max_gap = 5`, a loss sequence improving
only at iteration 0 and flat afterwards makes the loop break at iteration 5
(0-indexed). In general a break at iteration `i` can only happen with
best-tracking enabled, a strictly positive gap, and
`i - last_best_iter ≥ dynamic_max_gap`; and the gap check never fires when
best-tracking is disabled or the gap is not strictly positive. -/
theorem quant_block_early_stop :
    (quant_block_loop ⟨200, false, 5⟩ (fun _ => (1 : ℚ)) (fun _ => (0 : ℚ))).2 =
      some 5 ∧
    (∀ (cfg : LoopCfg) (loss : ℕ → ℚ) (params : ℕ → ℚ),
      cfg.not_use_best_mse = true →
      (quant_block_loop cfg loss params).2 = none) ∧
    (∀ (cfg : LoopCfg) (loss : ℕ → ℚ) (params : ℕ → ℚ),
      cfg.dynamic_max_gap ≤ 0 →
      (quant_block_loop cfg loss params).2 = none) ∧
    (∀ (cfg : LoopCfg) (loss : ℕ → ℚ) (params : ℕ → ℚ) (i : ℕ),
      (quant_block_loop cfg loss params).2 = some i →
      0 < cfg.dynamic_max_gap ∧ cfg.not_use_best_mse = false ∧
        cfg.dynamic_max_gap ≤ (i : ℤ) -
          ((quant_block_loop cfg loss params).1.last_best_iter : ℤ)) := by
  refine ⟨by decide, fun cfg loss params h => ?_, fun cfg loss params h => ?_,
    fun cfg loss params i h => ?_⟩
  · exact quantLoopAux_no_break_of_disabled cfg loss params h _ _ _
  · exact quantLoopAux_no_break_of_nonpos_gap cfg loss params h _ _ _
  · exact quantLoopAux_break_reached cfg loss params _ _ i _ h

lemma quantIterUpdate_best_loss {α : Type} (cfg : LoopCfg) (loss : ℕ → ℚ)
    (params : ℕ → α) (i : ℕ) (s : LoopState α) :
    (quantIterUpdate cfg loss params i s).best_loss =
      if ltBest (loss i) s.best_loss then some (loss i) else s.best_loss := by
  by_cases h : ltBest (loss i) s.best_loss = true
  · cases hn : cfg.not_use_best_mse <;>
      by_cases hl : (i == cfg.iters - 1) = true <;>
        simp [quantIterUpdate, h, hn, hl]
  · cases hn : cfg.not_use_best_mse <;>
      by_cases hl : (i == cfg.iters - 1) = true <;>
        simp [quantIterUpdate, h, hn, hl]

lemma quantIterUpdate_snap_tracking {α : Type} (cfg : LoopCfg) (loss : ℕ → ℚ)
    (params : ℕ → α) (i : ℕ) (s : LoopState α)
    (hn : cfg.not_use_best_mse = false) :
    (quantIterUpdate cfg loss params i s).snap =
      if ltBest (loss i) s.best_loss then some (params i) else s.snap := by
  by_cases h : ltBest (loss i) s.best_loss = true <;>
    simp [quantIterUpdate, h, hn]

lemma bestLE_refl (a : Option ℚ) : bestLE a a := by
  cases a with
  | none => trivial
  | some x => exact le_refl x

/-- Claim C3: best-loss tracking of the `quant_block` loop. Across executed
iterations the recorded best loss never increases; it is overwritten with the
iteration's total loss exactly when that loss is strictly below the current
best; at that same moment, when best-tracking is enabled, the single
per-block snapshot is overwritten with the iteration's parameters; and when
no snapshot was ever recorded (the `torch.tensor(0)` sentinels reach
`unwrapper_block`), unwrap falls back to the neutral parameters
`v = 0`, `min_scale = 0`, `max_scale = 0` for every layer. -/
theorem quant_block_best_tracking :
    (∀ (cfg : LoopCfg) (loss : ℕ → ℚ) (params : ℕ → ℚ) (k : ℕ),
      bestLE (stateAt cfg loss params (k + 1)).best_loss
        (stateAt cfg loss params k).best_loss) ∧
    (∀ (cfg : LoopCfg) (loss : ℕ → ℚ) (params : ℕ → ℚ) (k : ℕ),
      (stateAt cfg loss params (k + 1)).best_loss =
        if ltBest (loss k) (stateAt cfg loss params k).best_loss then
          some (loss k)
        else (stateAt cfg loss params k).best_loss) ∧
    (∀ (cfg : LoopCfg) (loss : ℕ → ℚ) (params : ℕ → ℚ) (k : ℕ),
      cfg.not_use_best_mse = false →
      (stateAt cfg loss params (k + 1)).snap =
        if ltBest (loss k) (stateAt cfg loss params k).best_loss then
          some (params k)
        else (stateAt cfg loss params k).snap) ∧
    (∀ (layers : List (String × WrapperLinearState)),
      unwrapper_block layers none none none =
        layers.map fun _ => ⟨[[0]], [[0]], [[0]]⟩) := by
  refine ⟨fun cfg loss params k => ?_, fun cfg loss params k => ?_,
    fun cfg loss params k hn => ?_, fun layers => ?_⟩
  · show bestLE (quantIterUpdate cfg loss params k
      (stateAt cfg loss params k)).best_loss _
    rw [quantIterUpdate_best_loss]
    by_cases h : ltBest (loss k) (stateAt cfg loss params k).best_loss = true
    · rw [if_pos h]
      cases hb : (stateAt cfg loss params k).best_loss with
      | none => trivial
      | some b =>
        rw [hb] at h
        simp only [ltBest, decide_eq_true_eq] at h
        exact le_of_lt h
    · rw [if_neg h]
      exact bestLE_refl _
  · exact quantIterUpdate_best_loss cfg loss params k _
  · exact quantIterUpdate_snap_tracking cfg loss params k _ hn
  · have hc : clampTensor [[(0 : ℚ)]] = [[0]] := by
      simp [clampTensor, clampRow, clamp1]
    simp [unwrapper_block, WrapperLinear.unwrapper, hc]

/-- Whether the designated block's `forward` method is the original one or
the capture interception installed by `_replace_forward`. -/
inductive ForwardState
  | original
  | replaced
  deriving DecidableEq

/-- The mutable part of the model that `_replace_forward` /
`_recover_forward` touch. -/
structure CaptureModel where
  forward_state : ForwardState

/-- Embedding of `AutoRound._replace_forward` (autoround.py lines 905-913): installs the
capture forward over the designated block. -/
def replace_forward (s : CaptureModel) : CaptureModel :=
  { s with forward_state := ForwardState.replaced }

/-- Embedding of `AutoRound._recover_forward` (autoround.py lines 897-903): restores the
original forward of the designated block. -/
def recover_forward (s : CaptureModel) : CaptureModel :=
  { s with forward_state := ForwardState.original }

/-- Embedding of `AutoRound.cache_block_input` (autoround.py lines 835-842): straight-line
`_replace_forward(); calib(n_samples); _recover_forward()`, with no
try/finally. `calibRun` is the outcome of the `calib` call: `Except.ok` when
it returns, `Except.error` when it raises (the fatal zero-sample `exit()`,
the missing-tokenizer `exit()`, or an exception out of the dataloader loop).
When `calib` raises, the exception propagates before `_recover_forward` is
reached. -/
def cache_block_input {ε α : Type} (calibRun : Except ε α) (s : CaptureModel) :
    CaptureModel × Except ε α :=
  let s1 := replace_forward s
  match calibRun with
  | Except.ok a => (recover_forward s1, Except.ok a)
  | Except.error e => (s1, Except.error e)

/-- Claim C4 counterexample: when the calibration run raises, the block's
forward is left replaced — `cache_block_input` does not restore the original
forward on the exception path, so restoration is not performed on every exit
path. -/
theorem cache_block_input_not_recovered_on_error :
    (@cache_block_input Unit Unit (Except.error ())
        ⟨ForwardState.original⟩).1.forward_state =
      ForwardState.replaced ∧
      ForwardState.replaced ≠ ForwardState.original := by
  exact ⟨rfl, by decide⟩

/-- Claim C4 as amended: the designated block's forward is restored after the
capture run exactly when `calib` returns normally; when `calib` raises, the
replaced forward is left installed (there is no try/finally around the
capture run). -/
theorem cache_block_input_recovery {ε α : Type} (r : Except ε α)
    (s : CaptureModel) :
    (cache_block_input r s).1.forward_state =
      (match r with
        | Except.ok _ => ForwardState.original
        | Except.error _ => ForwardState.replaced) ∧
    (cache_block_input r s).2 = r := by
  cases r with
  | ok a => exact ⟨rfl, rfl⟩
  | error e => exact ⟨rfl, rfl⟩

/-- The `AutoRound` fields `calib` reads: the minimum sequence length, the
requested sample count, and whether a tokenizer was provided. -/
structure CalibCfg where
  seqlen : ℕ
  n_samples : ℕ
  has_tokenizer : Bool

/-- One item yielded by the calibration dataloader, as `calib`
(autoround.py lines 773-808) distinguishes them: `None`, a raw token-id
tensor of `samples` rows with `seqLen` tokens, a raw string of `tokLen`
tokens before truncation, or a pre-tokenized keyed bundle. -/
inductive CalibBatch
  | noData
  | tensorBatch (samples seqLen : ℕ)
  | strBatch (tokLen : ℕ)
  | dictBatch (samples seqLen : ℕ)
  deriving DecidableEq

/-- How one batch contributes to the sample count: `Except.error` is the
fatal missing-tokenizer `exit()` for a string batch, `Except.ok none` a
skipped batch (`None`, or sequence shorter than `seqlen`), `Except.ok
(some s)` a batch contributing `s` rows (a string tokenizes into one row,
truncated to `seqlen` tokens). -/
def calibBatchSamples (cfg : CalibCfg) (b : CalibBatch) : Except Unit (Option ℕ) :=
  match b with
  | CalibBatch.noData => Except.ok none
  | CalibBatch.tensorBatch s l =>
      if l < cfg.seqlen then Except.ok none else Except.ok (some s)
  | CalibBatch.strBatch t =>
      if cfg.has_tokenizer = false then Except.error ()
      else if min t cfg.seqlen < cfg.seqlen then Except.ok none
      else Except.ok (some 1)
  | CalibBatch.dictBatch s l =>
      if l < cfg.seqlen then Except.ok none else Except.ok (some s)

/-- The batch loop of `calib`: accumulate `total_cnt`, truncating the last
batch to `n_samples - total_cnt` rows when it would overshoot, and stop
consuming once `total_cnt >= n_samples`. `Except.error c` carries the count
captured when the missing-tokenizer `exit()` aborts the run mid-loop. -/
def calibLoop (cfg : CalibCfg) : List CalibBatch → ℕ → Except ℕ ℕ
  | [], total => Except.ok total
  | b :: rest, total =>
    match calibBatchSamples cfg b with
    | Except.error _ => Except.error total
    | Except.ok none => calibLoop cfg rest total
    | Except.ok (some s) =>
        let s2 := if cfg.n_samples < total + s then cfg.n_samples - total else s
        let total2 := total + s2
        if cfg.n_samples ≤ total2 then Except.ok total2
        else calibLoop cfg rest total2

/-- The observable outcome of `calib` (autoround.py lines 745-819): a fatal
mid-loop `exit()` for a string batch without tokenizer, the fatal
zero-sample `exit()` after the loop, the insufficient-samples warning, or a
normal completion. -/
inductive CalibOutcome
  | fatalNoTokenizer (captured : ℕ)
  | fatalNoData
  | warning (captured : ℕ)
  | okRun (captured : ℕ)
  deriving DecidableEq

/-- Embedding of `AutoRound.calib`: run the batch loop from zero, then classify: zero
captured is fatal, fewer than requested warns and proceeds, otherwise the
run completes normally. -/
def calib (cfg : CalibCfg) (batches : List CalibBatch) : CalibOutcome :=
  match calibLoop cfg batches 0 with
  | Except.error cap => CalibOutcome.fatalNoTokenizer cap
  | Except.ok total =>
      if total = 0 then CalibOutcome.fatalNoData
      else if total < cfg.n_samples then CalibOutcome.warning total
      else CalibOutcome.okRun total

/-- Whether the outcome terminates the whole run (`exit()`). -/
def CalibOutcome.isFatal : CalibOutcome → Bool
  | CalibOutcome.fatalNoTokenizer _ => true
  | CalibOutcome.fatalNoData => true
  | _ => false

/-- The number of samples captured when the outcome was reached. -/
def CalibOutcome.captured : CalibOutcome → ℕ
  | CalibOutcome.fatalNoTokenizer c => c
  | CalibOutcome.fatalNoData => 0
  | CalibOutcome.warning c => c
  | CalibOutcome.okRun c => c

/-- Claim C5 counterexample: `calib` can terminate the run fatally with a
nonzero number of captured samples — a string batch reached while no
tokenizer is provided calls `exit()` mid-loop even though samples were
already captured, so "fatal if and only if zero samples were captured" fails
as stated. Here one tensor batch of 2 samples is captured before the string
batch aborts the run. -/
theorem calib_fatal_with_nonzero_samples :
    (calib ⟨4, 10, false⟩
        [CalibBatch.tensorBatch 2 4, CalibBatch.strBatch 4]).isFatal = true ∧
    (calib ⟨4, 10, false⟩
        [CalibBatch.tensorBatch 2 4, CalibBatch.strBatch 4]).captured = 2 := by
  constructor
  · rfl
  · rfl

lemma calibBatchSamples_ok_of_tokenizer (cfg : CalibCfg) (b : CalibBatch)
    (h : cfg.has_tokenizer = true) :
    ∃ o, calibBatchSamples cfg b = Except.ok o := by
  cases b with
  | noData => exact ⟨none, rfl⟩
  | tensorBatch s l =>
    by_cases hl : l < cfg.seqlen <;> simp [calibBatchSamples, hl]
  | strBatch t =>
    by_cases hl : min t cfg.seqlen < cfg.seqlen <;>
      simp [calibBatchSamples, h, hl]
  | dictBatch s l =>
    by_cases hl : l < cfg.seqlen <;> simp [calibBatchSamples, hl]

lemma calibLoop_ok_of_tokenizer (cfg : CalibCfg)
    (h : cfg.has_tokenizer = true) :
    ∀ (bs : List CalibBatch) (tot : ℕ),
      ∃ t, calibLoop cfg bs tot = Except.ok t := by
  intro bs
  induction bs with
  | nil => intro tot; exact ⟨tot, rfl⟩
  | cons b rest ih =>
    intro tot
    obtain ⟨o, ho⟩ := calibBatchSamples_ok_of_tokenizer cfg b h
    cases o with
    | none =>
      obtain ⟨t, ht⟩ := ih tot
      exact ⟨t, by simp [calibLoop, ho, ht]⟩
    | some s =>
      by_cases hn : cfg.n_samples ≤
          tot + (if cfg.n_samples < tot + s then cfg.n_samples - tot else s)
      · exact ⟨tot + (if cfg.n_samples < tot + s then cfg.n_samples - tot
          else s), by simp [calibLoop, ho, hn]⟩
      · obtain ⟨t, ht⟩ := ih
          (tot + (if cfg.n_samples < tot + s then cfg.n_samples - tot else s))
        exact ⟨t, by simp [calibLoop, ho, hn, ht]⟩

lemma calibLoop_stops (cfg : CalibCfg) (extra : List CalibBatch) :
    ∀ (bs : List CalibBatch) (tot t : ℕ), tot < cfg.n_samples →
      calibLoop cfg bs tot = Except.ok t → cfg.n_samples ≤ t →
      calibLoop cfg (bs ++ extra) tot = Except.ok t := by
  intro bs
  induction bs with
  | nil =>
    intro tot t htot heq hle
    simp only [calibLoop, Except.ok.injEq] at heq
    subst heq
    exact absurd hle (not_le.mpr htot)
  | cons b rest ih =>
    intro tot t htot heq hle
    cases hcb : calibBatchSamples cfg b with
    | error e =>
      rw [calibLoop, hcb] at heq
      exact absurd heq (by simp)
    | ok o =>
      cases o with
      | none =>
        rw [calibLoop, hcb] at heq
        rw [List.cons_append, calibLoop, hcb]
        exact ih tot t htot heq hle
      | some s =>
        rw [calibLoop, hcb] at heq
        rw [List.cons_append, calibLoop, hcb]
        by_cases hn : cfg.n_samples ≤
            tot + (if cfg.n_samples < tot + s then cfg.n_samples - tot else s)
        · simp only [hn, if_pos] at heq ⊢
          exact heq
        · simp only [hn, if_neg, not_false_iff] at heq ⊢
          exact ih _ t (not_le.mp hn) heq hle

/-- Claim C5 as amended: when a tokenizer is provided (so the mid-loop
missing-tokenizer `exit()` cannot fire), `calib` terminates the run fatally
if and only if zero samples were captured; a warning outcome means a nonzero
count strictly below the requested `n_samples` and the run proceeds; and
once the requested count is reached the loop stops consuming further
batches — appending more data does not change the result. Without a
tokenizer, a string batch aborts fatally even with a nonzero captured count
(see the counterexample). -/
theorem calib_error_policy :
    (∀ (cfg : CalibCfg) (batches : List CalibBatch),
      cfg.has_tokenizer = true →
      ((calib cfg batches).isFatal = true ↔
        (calib cfg batches).captured = 0)) ∧
    (∀ (cfg : CalibCfg) (batches : List CalibBatch) (c : ℕ),
      calib cfg batches = CalibOutcome.warning c →
      0 < c ∧ c < cfg.n_samples) ∧
    (∀ (cfg : CalibCfg) (batches extra : List CalibBatch) (t : ℕ),
      calibLoop cfg batches 0 = Except.ok t → cfg.n_samples ≤ t →
      0 < cfg.n_samples →
      calibLoop cfg (batches ++ extra) 0 = Except.ok t) := by
  refine ⟨fun cfg batches h => ?_, fun cfg batches c h => ?_,
    fun cfg batches extra t heq hle hpos => ?_⟩
  · obtain ⟨t, ht⟩ := calibLoop_ok_of_tokenizer cfg h batches 0
    by_cases h0 : t = 0
    · subst h0
      simp [calib, ht, CalibOutcome.isFatal, CalibOutcome.captured]
    · by_cases hlt : t < cfg.n_samples <;>
        simp [calib, ht, h0, hlt, CalibOutcome.isFatal, CalibOutcome.captured]
  · cases heq : calibLoop cfg batches 0 with
    | error cap => simp [calib, heq] at h
    | ok total =>
      by_cases h0 : total = 0
      · simp [calib, heq, h0] at h
      · by_cases hlt : total < cfg.n_samples
        · simp [calib, heq, h0, hlt] at h
          subst h
          exact ⟨Nat.pos_of_ne_zero h0, hlt⟩
        · simp [calib, heq, h0, hlt] at h
  · exact calibLoop_stops cfg extra batches 0 t hpos heq hle

/-- The block-level behavior of `AutoRound.quant_block` (autoround.py lines
935-1099), abstracted over the tensor algebra: `fwd` is the block's float
forward over the whole calibration set (`get_block_outputs` before
wrapping), and `tune` maps the effective optimization input to the
committed quantized block forward (wrap, iterate, unwrap). The float
reference output is computed from the incoming `input_ids` before `q_input`
replaces them; in skip mode the block is neither wrapped nor tuned and the
float output is returned as both components; otherwise, with
`use_quant_input` the re-run quantized output is returned first, else
`None`. -/
def quant_block_model {α : Type} (fwd : α → α) (tune : α → α → α)
    (use_quant_input : Bool) (skip : Bool) (input_ids : α) (q_input : Option α) :
    Option α × α :=
  let output := fwd input_ids
  if skip then (some output, output)
  else
    let eff := match q_input with
      | some q => q
      | none => input_ids
    let qfwd := tune eff
    if use_quant_input then (some (qfwd eff), output) else (none, output)

/-- The per-position skip decision of `AutoRound.qdq_weight_round`
(autoround.py lines 1170-1175): position `i` is skipped when
`i + 1 <= self._pre_quantized_block_num`. -/
def skipDecision (pre_quantized i : ℕ) : Bool := decide (i + 1 ≤ pre_quantized)

/-- The configuration of the pipeline driver: the persisted progress marker
and the `MAX_NUM_BLOCKS` bound whose breach calls `exit(0)`. -/
structure PipeCfg where
  pre_quantized : ℕ
  max_num_blocks : ℕ
  use_quant_input : Bool

/-- The block loop of `AutoRound.qdq_weight_round` over the starting
positions `positions` (`range(0, len(block_names), n_blocks)`): thread
`(q_input, input_ids)` through `quant_block`, deciding `skip` per position
from the progress marker, and stop early when a position reaches
`MAX_NUM_BLOCKS`. -/
def qdq_weight_round {α : Type} (cfg : PipeCfg) (fwd : ℕ → α → α)
    (tune : ℕ → α → α → α) :
    List ℕ → Option α → α → Option α × α
  | [], q, inp => (q, inp)
  | i :: rest, q, inp =>
    if cfg.max_num_blocks ≤ i then (q, inp)
    else
      let r := quant_block_model (fwd i) (tune i) cfg.use_quant_input
        (skipDecision cfg.pre_quantized i) inp q
      qdq_weight_round cfg fwd tune rest r.1 r.2

/-- Claim C6: the skip boundary. A pipeline position `i` is skipped exactly
when `i + 1 ≤` the persisted progress marker; a skipped block's result is
the recomputed float forward output passed on unchanged as both the
quantized and the float output, independent of the tuner (it is never
wrapped or optimized); and a non-skipped position goes through the normal
wrap/optimize path of `quant_block_model`. -/
theorem block_skip_boundary :
    (∀ (pre i : ℕ), skipDecision pre i = true ↔ i + 1 ≤ pre) ∧
    (∀ (fwd : ℕ → ℕ) (tune : ℕ → ℕ → ℕ) (u : Bool) (inp : ℕ) (q : Option ℕ),
      quant_block_model fwd tune u true inp q = (some (fwd inp), fwd inp)) ∧
    (∀ (fwd : ℕ → ℕ) (tune1 tune2 : ℕ → ℕ → ℕ) (u : Bool) (inp : ℕ)
       (q : Option ℕ),
      quant_block_model fwd tune1 u true inp q =
        quant_block_model fwd tune2 u true inp q) ∧
    (∀ (cfg : PipeCfg) (fwd : ℕ → ℕ → ℕ) (tune : ℕ → ℕ → ℕ → ℕ)
       (i : ℕ) (rest : List ℕ) (q : Option ℕ) (inp : ℕ),
      i < cfg.max_num_blocks →
      qdq_weight_round cfg fwd tune (i :: rest) q inp =
        qdq_weight_round cfg fwd tune rest
          (quant_block_model (fwd i) (tune i) cfg.use_quant_input
            (skipDecision cfg.pre_quantized i) inp q).1
          (quant_block_model (fwd i) (tune i) cfg.use_quant_input
            (skipDecision cfg.pre_quantized i) inp q).2) := by
  refine ⟨fun pre i => ?_, fun fwd tune u inp q => rfl,
    fun fwd tune1 tune2 u inp q => rfl,
    fun cfg fwd tune i rest q inp hi => ?_⟩
  · exact decide_eq_true_iff
  · simp [qdq_weight_round, not_le.mpr hi]

/-- Claim C7: quantized-input propagation. With `use_quant_input` enabled, a
non-skipped `quant_block` returns the block re-run on the committed
quantized weights as its first component, and that output is what the next
block's forward sees as its effective input; with `use_quant_input`
disabled, the first component is `None` and the next block's effective
input falls back to the float reference output. Which of the two is
threaded forward is decided solely by the flag. -/
theorem quant_input_propagation :
    (∀ (fwd : ℕ → ℕ) (tune : ℕ → ℕ → ℕ) (inp : ℕ) (q : Option ℕ),
      quant_block_model fwd tune true false inp q =
        (some (tune (q.getD inp) (q.getD inp)), fwd inp)) ∧
    (∀ (fwd : ℕ → ℕ) (tune : ℕ → ℕ → ℕ) (inp : ℕ) (q : Option ℕ),
      quant_block_model fwd tune false false inp q = (none, fwd inp)) ∧
    (∀ (fwd : ℕ → ℕ) (tune : ℕ → ℕ → ℕ) (inp : ℕ) (q : Option ℕ),
      Option.getD (quant_block_model fwd tune true false inp q).1
          (quant_block_model fwd tune true false inp q).2 =
        tune (q.getD inp) (q.getD inp)) ∧
    (∀ (fwd : ℕ → ℕ) (tune : ℕ → ℕ → ℕ) (inp : ℕ) (q : Option ℕ),
      Option.getD (quant_block_model fwd tune false false inp q).1
          (quant_block_model fwd tune false false inp q).2 = fwd inp) := by
  refine ⟨fun fwd tune inp q => ?_, fun fwd tune inp q => ?_,
    fun fwd tune inp q => ?_, fun fwd tune inp q => ?_⟩ <;>
    cases q <;> rfl

/-- The integer constructor arguments of `AutoRound.__init__` that
`check_configs` validates. -/
structure AutoRoundArgs where
  bits : ℤ
  group_size : ℤ
  batch_size : ℤ
  iters : ℤ
  seqlen : ℤ
  n_blocks : ℤ
  gradient_accumulate_steps : ℤ
  deriving DecidableEq

/-- The assertion that fails first in `AutoRound.check_configs`. -/
inductive ConfigError
  | bitsNotPositive
  | groupSizeInvalid
  | batchSizeNotPositive
  | itersNotPositive
  | seqlenNotPositive
  | nBlocksNotPositive
  | gradAccumNotPositive
  deriving DecidableEq

/-- Embedding of `AutoRound.check_configs` (autoround.py lines 659-672): the chain of
assertions, raising at the first violated one. -/
def check_configs (a : AutoRoundArgs) : Except ConfigError Unit :=
  if 0 < a.bits then
    if a.group_size = -1 ∨ 1 ≤ a.group_size then
      if 0 < a.batch_size then
        if 0 < a.iters then
          if 0 < a.seqlen then
            if 0 < a.n_blocks then
              if 0 < a.gradient_accumulate_steps then Except.ok ()
              else Except.error ConfigError.gradAccumNotPositive
            else Except.error ConfigError.nBlocksNotPositive
          else Except.error ConfigError.seqlenNotPositive
        else Except.error ConfigError.itersNotPositive
      else Except.error ConfigError.batchSizeNotPositive
    else Except.error ConfigError.groupSizeInvalid
  else Except.error ConfigError.bitsNotPositive

/-- The `iters` handling of `AutoRound.__init__` (autoround.py lines
525-528), which runs before `check_configs`: a non-positive `iters` is
logged as a warning and reset to the default 200. -/
def autoRoundIters (a : AutoRoundArgs) : AutoRoundArgs :=
  if a.iters ≤ 0 then { a with iters := 200 } else a

/-- Embedding of `AutoRound.__init__` restricted to the validated integer arguments:
apply the `iters` reset, then run `check_configs`; construction succeeds
with the possibly-reset arguments or raises the first failed assertion. -/
def autoRoundInit (a : AutoRoundArgs) : Except ConfigError AutoRoundArgs :=
  match check_configs (autoRoundIters a) with
  | Except.ok _ => Except.ok (autoRoundIters a)
  | Except.error e => Except.error e

/-- Claim C8 counterexample: constructing the tuner with `iters = 0` (all
other arguments valid) does not fail — it succeeds with `iters` silently
replaced by the default 200, contradicting "must fail fast rather than
proceed, and in particular must not be silently replaced by a default
value". -/
theorem iters_nonpositive_accepted :
    autoRoundInit ⟨4, 128, 8, 0, 2048, 1, 1⟩ =
      Except.ok ⟨4, 128, 8, 200, 2048, 1, 1⟩ := by
  rfl

lemma check_configs_not_iters_error (b : AutoRoundArgs) (h : 0 < b.iters) :
    check_configs b ≠ Except.error ConfigError.itersNotPositive := by
  unfold check_configs
  repeat' split
  all_goals simp_all

lemma autoRoundInit_error_inv (a : AutoRoundArgs) (e : ConfigError)
    (h : autoRoundInit a = Except.error e) :
    check_configs (autoRoundIters a) = Except.error e := by
  unfold autoRoundInit at h
  cases hcc : check_configs (autoRoundIters a) with
  | ok u => rw [hcc] at h; exact absurd h (by simp)
  | error e2 => rw [hcc] at h; simp only [Except.error.injEq] at h; rw [h]

/-- Claim C8 as amended: non-positive batch size (and likewise the other
validated arguments) makes construction fail fast at `check_configs`, but a
non-positive `iters` never does — `__init__` resets it to the default 200
with only a warning before `check_configs` runs, so the `iters` assertion is
unreachable and construction succeeds with `iters = 200`. -/
theorem config_validation_amended :
    (∀ a : AutoRoundArgs,
      autoRoundInit a ≠ Except.error ConfigError.itersNotPositive) ∧
    (∀ (a b : AutoRoundArgs), a.iters ≤ 0 →
      autoRoundInit a = Except.ok b → b.iters = 200) ∧
    (∀ a : AutoRoundArgs, a.batch_size ≤ 0 → 0 < a.bits →
      (a.group_size = -1 ∨ 1 ≤ a.group_size) →
      autoRoundInit a = Except.error ConfigError.batchSizeNotPositive) ∧
    (∀ a : AutoRoundArgs, a.bits ≤ 0 →
      autoRoundInit a = Except.error ConfigError.bitsNotPositive) := by
  refine ⟨fun a h => ?_, fun a b hit hok => ?_, fun a hbs hbits hgrp => ?_,
    fun a hbits => ?_⟩
  · have hpos : 0 < (autoRoundIters a).iters := by
      unfold autoRoundIters
      split
      · norm_num
      · next h2 => omega
    exact check_configs_not_iters_error _ hpos (autoRoundInit_error_inv a _ h)
  · unfold autoRoundInit at hok
    cases hcc : check_configs (autoRoundIters a) with
    | ok u =>
      rw [hcc] at hok
      simp only [Except.ok.injEq] at hok
      rw [← hok]
      unfold autoRoundIters
      rw [if_pos hit]
    | error e => rw [hcc] at hok; exact absurd hok (by simp)
  · by_cases hit : a.iters ≤ 0 <;>
      simp [autoRoundInit, autoRoundIters, check_configs, hit, hbits, hgrp,
        not_lt.mpr hbs]
  · by_cases hit : a.iters ≤ 0 <;>
      simp [autoRoundInit, autoRoundIters, check_configs, hit,
        not_lt.mpr hbits]

/-- Embedding of `AutoRound.quantize` reduced to its block-discovery head (autoround.py
lines 1228-1238 and the final return): when `get_block_names` finds no
blocks, the warning branch executes a bare `return`, so the caller receives
`None`; otherwise the pipeline runs and the (model, weight_config) result is
returned. -/
def quantize {μ : Type} (block_names : List String) (model : μ)
    (pipeline : μ → μ) : Option μ :=
  if block_names.isEmpty then none
  else some (pipeline model)

/-- Claim C9 (code bug): with no structural blocks, `quantize` returns
`None` — not the unmodified model that the claim, the docstring and the log
message promise. -/
theorem quantize_no_blocks_returns_none :
    quantize [] (0 : ℕ) id = none ∧
    ∀ (m : ℕ) (p : ℕ → ℕ), quantize [] m p = none :=
  ⟨rfl, fun _ _ => rfl⟩

/-- A `torch.nn.Linear` layer of `n` input and `m` output features
(teq_util.py wraps these). -/
structure LinearMod (n m : ℕ) where
  weight : Fin m → Fin n → ℚ
  bias : Option (Fin m → ℚ)

/-- Embedding of `Linear.forward`: `x @ weight.t() + bias` on one row. -/
def LinearMod.forward {n m : ℕ} (L : LinearMod n m) (x : Fin n → ℚ) :
    Fin m → ℚ :=
  fun j => (∑ i, L.weight j i * x i) +
    (match L.bias with
      | some b => b j
      | none => 0)

/-- The `ScaleMod` constructor (teq_util.py lines 36-39): the `scales`
parameter starts as `torch.ones(shape)`. -/
def ScaleMod.init (k : ℕ) : Fin k → ℚ := fun _ => 1

/-- Embedding of `ScaleMod.forward` (teq_util.py lines 41-42): returns the scales viewed
as one broadcast row, ignoring the input. -/
def ScaleMod.forward {k : ℕ} (scales : Fin k → ℚ) (_x : Fin k → ℚ) :
    Fin k → ℚ :=
  scales

/-- Embedding of `MulLinear.forward` (teq_util.py lines 68-71): multiply the input
elementwise by the scale row, then apply the wrapped linear layer. -/
def MulLinear.forward {n m : ℕ} (L : LinearMod n m) (scales : Fin n → ℚ)
    (x : Fin n → ℚ) : Fin m → ℚ :=
  L.forward (fun i => x i * ScaleMod.forward scales x i)

/-- Embedding of `DivLinear.forward` (teq_util.py lines 55-58): apply the wrapped module
(`f`, an arbitrary previous op), then divide its output elementwise by the
scale row. -/
def DivLinear.forward {n m : ℕ} (f : (Fin n → ℚ) → (Fin m → ℚ))
    (scales : Fin m → ℚ) (x : Fin n → ℚ) : Fin m → ℚ :=
  fun j => f x j / ScaleMod.forward scales (f x) j

/-- Claim C10: immediately after construction, while the `ScaleMod`
parameter is still `torch.ones`, `MulLinear` and `DivLinear` wrappers
compute exactly the wrapped module's forward, and a matched
`DivLinear`-then-`MulLinear` pair sharing one `ScaleMod` (the shape
`replace_` installs) leaves the composed forward unchanged — the rewrite is
identity-preserving until the scales are trained. -/
theorem scale_wrapper_identity :
    (∀ (n m : ℕ) (L : LinearMod n m) (x : Fin n → ℚ),
      MulLinear.forward L (ScaleMod.init n) x = L.forward x) ∧
    (∀ (n m : ℕ) (f : (Fin n → ℚ) → (Fin m → ℚ)) (x : Fin n → ℚ),
      DivLinear.forward f (ScaleMod.init m) x = f x) ∧
    (∀ (n m k : ℕ) (f : (Fin n → ℚ) → (Fin m → ℚ)) (L : LinearMod m k)
       (x : Fin n → ℚ),
      MulLinear.forward L (ScaleMod.init m)
          (DivLinear.forward f (ScaleMod.init m) x) =
        L.forward (f x)) := by
  have hmul : ∀ (n m : ℕ) (L : LinearMod n m) (x : Fin n → ℚ),
      MulLinear.forward L (ScaleMod.init n) x = L.forward x := by
    intro n m L x
    show L.forward (fun i => x i * ScaleMod.forward (ScaleMod.init n) x i) =
      L.forward x
    funext j
    simp [ScaleMod.forward, ScaleMod.init]
  have hdiv : ∀ (n m : ℕ) (f : (Fin n → ℚ) → (Fin m → ℚ)) (x : Fin n → ℚ),
      DivLinear.forward f (ScaleMod.init m) x = f x := by
    intro n m f x
    funext j
    simp [DivLinear.forward, ScaleMod.forward, ScaleMod.init]
  refine ⟨hmul, hdiv, fun n m k f L x => ?_⟩
  rw [hdiv n m f x, hmul m k L (f x)]
